import Mathlib

/-!
Verification development for the rag-frontend client (TypeScript sources in
`src/`).  The shallow embedding below translates the relevant parts of
`src/App.tsx`, `src/services/workflowService.ts`, the chat-based App
revision (`src/unnamed/part_004`) and the two revisions of
`isValidGitHubUrl` (`src/unnamed/part_008`, `src/unnamed/part_009`) into
executable Lean definitions.  JavaScript strings are modelled as `String`
(with character-list helpers mirroring JS semantics), `Date` values as
natural numbers of milliseconds since the epoch, JS numbers used for
progress as rationals, and fallible/asynchronous calls as explicit outcome
values.
-/

/-! ### JavaScript string helpers -/

/-- Characters stripped by JavaScript `String.prototype.trim`: the
ECMAScript WhiteSpace production (TAB U+0009, VT U+000B, FF U+000C,
SP U+0020, NBSP U+00A0, ZWNBSP U+FEFF and the Unicode Zs space
separators) together with the LineTerminator production (LF U+000A,
CR U+000D, LS U+2028, PS U+2029). -/
def jsWhitespace (c : Char) : Bool :=
  c.toNat = 0x9 || c.toNat = 0xA || c.toNat = 0xB || c.toNat = 0xC || c.toNat = 0xD
    || c.toNat = 0x20 || c.toNat = 0xA0 || c.toNat = 0x1680
    || (0x2000 ≤ c.toNat && c.toNat ≤ 0x200A)
    || c.toNat = 0x2028 || c.toNat = 0x2029 || c.toNat = 0x202F
    || c.toNat = 0x205F || c.toNat = 0x3000 || c.toNat = 0xFEFF

/-- Drop trailing characters satisfying `p` (helper for `trim`). -/
def rdropWhileChars (p : Char → Bool) (l : List Char) : List Char :=
  (l.reverse.dropWhile p).reverse

/-- Model of JS `url.trim()` on the character list. -/
def trimChars (l : List Char) : List Char :=
  rdropWhileChars jsWhitespace (l.dropWhile jsWhitespace)

/-- Model of JS `String.prototype.trim`. -/
def jsTrim (s : String) : String := ⟨trimChars s.data⟩

/-- ASCII lower-casing of one character (sufficient for the `/test`
comparison done by `startWorkflow`). -/
def asciiLower (c : Char) : Char :=
  if 'A' ≤ c ∧ c ≤ 'Z' then Char.ofNat (c.toNat + 32) else c

/-- Model of JS `String.prototype.toLowerCase`, lowering the ASCII range.
On the one comparison this repository performs (equality with `/test`)
this agrees with full Unicode lowercasing: no non-ASCII character
lower-cases onto `/`, `t`, `e` or `s`. -/
def jsToLower (s : String) : String := ⟨s.data.map asciiLower⟩

/-- Strip a literal prefix from a character list, returning the remainder
when the prefix matches. -/
def stripPrefixChars : List Char → List Char → Option (List Char)
  | [], l => some l
  | _ :: _, [] => none
  | p :: ps, c :: cs => if p = c then stripPrefixChars ps cs else none

/-- Model of JS `String.prototype.startsWith`. -/
def jsStartsWith (s pre : String) : Bool :=
  (stripPrefixChars pre.data s.data).isSome

/-- JS template interpolation of a possibly-`undefined` value:
`${x}` renders `undefined` as the string "undefined". -/
def jsTemplate : Option String → String
  | some s => s
  | none => "undefined"

/-- JS truthiness of an optional string (`undefined` and `""` are falsy). -/
def jsTruthyStr : Option String → Bool
  | some s => s ≠ ""
  | none => false

/-- JS `a || b` for an optional string `a` with string fallback `b`. -/
def jsOrStr (o : Option String) (alt : String) : String :=
  match o with
  | some s => if s = "" then alt else s
  | none => alt

/-! ### Core data types (src/types.ts) -/

/-- `WorkflowStatus` from src/types.ts. -/
inductive WorkflowStatus
  | RUNNING
  | COMPLETED
  | FAILED
  | WAITING_FOR_DEVELOPER
deriving DecidableEq, Repr

/-- `MessageSender` from src/types.ts (`'user' | 'agent'`). -/
inductive MessageSender
  | user
  | agent
deriving DecidableEq, Repr

/-- `ChatMessage` from src/types.ts.  `timestamp` is a `Date`, modelled as
milliseconds since the epoch; `progress` is a JS number in `[0,1]`,
modelled as a rational. -/
structure ChatMessage where
  id : String
  sender : MessageSender
  content : String
  timestamp : Nat
  agent : Option String
  status : Option WorkflowStatus
  progress : Option ℚ
deriving DecidableEq, Repr

/-- `WorkflowStatusResponse` from src/types.ts: the decoded payload of one
workflow stream frame (also the `startWorkflow` response shape). -/
structure WorkflowStatusResponse where
  conversationId : String
  status : WorkflowStatus
  message : String
  agent : Option String
  progress : Option ℚ
deriving DecidableEq, Repr

/-- `Conversation` from src/types.ts (the locally persisted record). -/
structure Conversation where
  id : String
  repoUrl : String
  messages : List ChatMessage
  timestamp : Nat
deriving DecidableEq, Repr

/-- `true` exactly for the terminal workflow statuses. -/
def isTerminalStatus (s : WorkflowStatus) : Bool :=
  s = .COMPLETED || s = .FAILED

/-! ### URL validation (src/unnamed/part_008 and src/unnamed/part_009) -/

/-- JS `\w` character class: `[A-Za-z0-9_]`. -/
def isWordChar (c : Char) : Bool :=
  ('a' ≤ c && c ≤ 'z') || ('A' ≤ c && c ≤ 'Z') || ('0' ≤ c && c ≤ '9') || c = '_'

/-- Character class `[\w-]` (first path segment of the strict pattern). -/
def seg1Char (c : Char) : Bool := isWordChar c || c = '-'

/-- Character class `[\w.-]` (second path segment of the strict pattern). -/
def seg2Char (c : Char) : Bool := isWordChar c || c = '.' || c = '-'

/-- JS regex `.` without the `s` flag: any character except a line
terminator (`\n`, `\r`, U+2028, U+2029). -/
def dotChar (c : Char) : Bool :=
  c.toNat ≠ 10 && c.toNat ≠ 13 && c.toNat ≠ 0x2028 && c.toNat ≠ 0x2029

/-- Matcher for the strict pattern
`^https:\/\/github\.com\/[\w-]+\/[\w.-]+(\/.*)?$` of src/unnamed/part_008.
The character classes exclude `/`, so greedy matching is deterministic. -/
def strictGitHubPatternTest (l : List Char) : Bool :=
  match stripPrefixChars "https://github.com/".data l with
  | none => false
  | some r1 =>
    let seg1 := r1.takeWhile seg1Char
    let r2 := r1.dropWhile seg1Char
    if seg1.isEmpty then false else
    match r2 with
    | '/' :: r3 =>
      let seg2 := r3.takeWhile seg2Char
      let r4 := r3.dropWhile seg2Char
      if seg2.isEmpty then false else
      match r4 with
      | [] => true
      | '/' :: rest => rest.all dotChar
      | _ => false
    | _ => false

/-- Matcher for the relaxed pattern `^https?:\/\/.+$` of
src/unnamed/part_009 (`https?` is deterministic here because `:` never
matches `s`). -/
def relaxedPatternTest (l : List Char) : Bool :=
  match stripPrefixChars "https://".data l with
  | some rest => !rest.isEmpty && rest.all dotChar
  | none =>
    match stripPrefixChars "http://".data l with
    | some rest => !rest.isEmpty && rest.all dotChar
    | none => false

/-- `isValidGitHubUrl` from src/unnamed/part_008 (earlier, strict
revision): requires a non-empty string starting with `https://` (checked
on the untrimmed string) and the GitHub pattern on the trimmed string. -/
def isValidGitHubUrlStrict (url : String) : Bool :=
  if url = "" then false
  else if !jsStartsWith url "https://" then false
  else strictGitHubPatternTest (trimChars url.data)

/-- `isValidGitHubUrl` from src/unnamed/part_009 (later, relaxed
revision): requires a non-empty string and the relaxed `http(s)://`
pattern on the trimmed string. -/
def isValidGitHubUrlRelaxed (url : String) : Bool :=
  if url = "" then false
  else relaxedPatternTest (trimChars url.data)

/-! ### Conversation State Coordinator (src/App.tsx) -/

/-- The fresh agent message pushed by `handleWorkflowUpdate` when no agent
tail exists (`src/App.tsx` lines 148156 and 180188); `now` models
`Date.now()`. -/
def newAgentMessage (status : WorkflowStatusResponse) (now : Nat) : ChatMessage :=
  { id := "msg_" ++ toString now ++ "_a"
    sender := .agent
    content := status.message
    timestamp := now
    agent := status.agent
    status := some status.status
    progress := status.progress }

/-- The in-place mutation of the tail agent message performed by
`handleWorkflowUpdate` (`src/App.tsx` lines 138144 and 170176). -/
def updatedTailMessage (lastMsg : ChatMessage) (status : WorkflowStatusResponse) : ChatMessage :=
  { lastMsg with
      content := status.message
      status := some status.status
      progress := status.progress
      agent := status.agent }

/-- Step 1 of `handleWorkflowUpdate` applied to one conversation's message
list (`src/App.tsx` lines 132158): mutate the agent tail in place, or
append a fresh agent message when the update's message is truthy and the
tail is absent or a user message. -/
def applyUpdateToConvMessages (status : WorkflowStatusResponse) (now : Nat)
    (msgs : List ChatMessage) : List ChatMessage :=
  match msgs.getLast? with
  | some lastMsg =>
    if lastMsg.sender = .agent then
      msgs.dropLast ++ [updatedTailMessage lastMsg status]
    else if status.message ≠ "" ∧ lastMsg.sender = .user then
      msgs ++ [newAgentMessage status now]
    else msgs
  | none =>
    if status.message ≠ "" then [newAgentMessage status now] else msgs

/-- Step 2 of `handleWorkflowUpdate` applied to the rendered message list
(`src/App.tsx` lines 165191): mutate the agent tail in place, or append a
fresh agent message when the update's message is truthy. -/
def applyUpdateToViewMessages (status : WorkflowStatusResponse) (now : Nat)
    (msgs : List ChatMessage) : List ChatMessage :=
  match msgs.getLast? with
  | some lastMsg =>
    if lastMsg.sender = .agent then
      msgs.dropLast ++ [updatedTailMessage lastMsg status]
    else if status.message ≠ "" then
      msgs ++ [newAgentMessage status now]
    else msgs
  | none =>
    if status.message ≠ "" then [newAgentMessage status now] else msgs

/-- The coordinator state touched by `handleWorkflowUpdate`: the persisted
conversation list, the focused conversation id
(`currentConversationIdRef`), the rendered `messages` state and the
`isLoading` flag.  The active-stream table is modelled separately (see
`StreamTable`). -/
structure CoordState where
  conversations : List Conversation
  currentConversationId : Option String
  messages : List ChatMessage
  isLoading : Bool
deriving DecidableEq, Repr

/-- The `setConversations` functional update of `handleWorkflowUpdate`
(`src/App.tsx` lines 128161): fold the update into the conversation whose
id matches, leave every other conversation untouched. -/
def updateConversations (status : WorkflowStatusResponse) (now : Nat)
    (conversationId : String) (convs : List Conversation) : List Conversation :=
  convs.map fun c =>
    if c.id ≠ conversationId then c
    else { c with messages := applyUpdateToConvMessages status now c.messages }

/-- `handleWorkflowUpdate` from `src/App.tsx` (lines 125205): always fold
the update into the matching conversation's persisted record; fold it into
the rendered `messages` state and recompute `isLoading` only when the
update's conversation is the focused one. -/
def handleWorkflowUpdate (status : WorkflowStatusResponse) (conversationId : String)
    (now : Nat) (st : CoordState) : CoordState :=
  if st.currentConversationId = some conversationId then
    { st with
        conversations := updateConversations status now conversationId st.conversations
        messages := applyUpdateToViewMessages status now st.messages
        isLoading := !isTerminalStatus status.status }
  else
    { st with conversations := updateConversations status now conversationId st.conversations }

/-! ### Active-stream table (src/App.tsx, `activeStreamsRef`)

The `Map<string, EventSource>` is modelled as an association list from
conversation id to a handle number; `openHandles` records every
`EventSource` that has been created and not yet `close()`d, tagged with
the conversation id it was opened for; `nextHandle` generates fresh
handles. -/

/-- `Map.get` on the association-list model. -/
def mapGet : List (String × Nat) → String → Option Nat
  | [], _ => none
  | (k, v) :: rest, id => if k = id then some v else mapGet rest id

/-- `Map.set` on the association-list model (replaces in place when the
key exists, appends otherwise — JS `Map.set` semantics). -/
def mapSet : List (String × Nat) → String → Nat → List (String × Nat)
  | [], id, h => [(id, h)]
  | (k, v) :: rest, id, h =>
    if k = id then (id, h) :: rest else (k, v) :: mapSet rest id h

/-- `Map.delete` on the association-list model. -/
def mapDelete (l : List (String × Nat)) (id : String) : List (String × Nat) :=
  l.filter fun p => p.1 ≠ id

/-- State of the active-stream bookkeeping. -/
structure StreamTable where
  table : List (String × Nat)
  openHandles : List (String × Nat)
  nextHandle : Nat
deriving DecidableEq, Repr

/-- `closeStream` from `src/App.tsx` (lines 114121): when the table has
an entry for `id`, close that `EventSource` and delete the entry. -/
def closeStream (id : String) (s : StreamTable) : StreamTable :=
  match mapGet s.table id with
  | some h =>
    { table := mapDelete s.table id
      openHandles := s.openHandles.filter fun p => ¬(p.1 = id ∧ p.2 = h)
      nextHandle := s.nextHandle }
  | none => s

/-- Opening a stream: `connectToWorkflowStream` creates a fresh
`EventSource`, which is then stored via `activeStreamsRef.current.set`
(`src/App.tsx` lines 362368 and 281286). -/
def connectStream (id : String) (s : StreamTable) : StreamTable :=
  { table := mapSet s.table id s.nextHandle
    openHandles := s.openHandles ++ [(id, s.nextHandle)]
    nextHandle := s.nextHandle + 1 }

/-- The stream-table effects of the coordinator's operations:
`send` is the stream section of `handleSendMessage` (close any prior
handle, then connect, lines 358368); `load` is the resume section of
`loadConversation` (connect only when the server reports RUNNING and no
handle is held, otherwise close, lines 273291); `update` is step 3 of
`handleWorkflowUpdate` (close on terminal status, lines 201204);
`errorEvt` is `handleWorkflowError`'s `closeStream` (line 221). -/
inductive StreamOp
  | send (id : String)
  | load (id : String) (serverRunning : Bool)
  | update (id : String) (terminal : Bool)
  | errorEvt (id : String)
deriving DecidableEq, Repr

/-- One coordinator operation acting on the stream table. -/
def streamStep (s : StreamTable) : StreamOp → StreamTable
  | .send id => connectStream id (closeStream id s)
  | .load id serverRunning =>
    if serverRunning then
      if (mapGet s.table id).isSome then s else connectStream id s
    else closeStream id s
  | .update id terminal => if terminal then closeStream id s else s
  | .errorEvt id => closeStream id s

/-- The stream table obtained by running a sequence of coordinator
operations from the initial empty table. -/
def streamRun (ops : List StreamOp) : StreamTable :=
  ops.foldl streamStep ⟨[], [], 0⟩

/-- Number of open subscription handles held for a conversation id. -/
def openCount (s : StreamTable) (id : String) : Nat :=
  (s.openHandles.filter fun p => p.1 = id).length

/-- Invariant tying the table to the set of open handles: the open handles
are exactly the table entries, table keys are unique, and all recorded
handles are below the fresh-handle counter. -/
def StreamInv (s : StreamTable) : Prop :=
  s.openHandles = s.table ∧ (s.table.map Prod.fst).Nodup ∧
    ∀ p ∈ s.table, p.2 < s.nextHandle

/-! ### Backend Client: startWorkflow (src/services/workflowService.ts) -/

/-- `WorkflowRequest` from src/types.ts; a `File` is modelled by its
name. -/
structure WorkflowRequest where
  requirement : String
  repoUrl : String
  targetClass : Option String
  logsPasted : Option String
  logFiles : Option (List String)
deriving DecidableEq, Repr

/-- A value appended to a `FormData`: a text field or a file part. -/
inductive FormValue
  | text (s : String)
  | filePart (name : String)
deriving DecidableEq, Repr

/-- The body of the `POST /workflows/start` request. -/
inductive RequestBody
  | json (s : String)
  | multipart (parts : List (String × FormValue))
deriving DecidableEq, Repr

/-- `hasLogs` from `startWorkflow` (line 352):
`!!request.logsPasted || (request.logFiles && request.logFiles.length > 0)`. -/
def hasLogPayload (req : WorkflowRequest) : Bool :=
  jsTruthyStr req.logsPasted ||
    (match req.logFiles with
     | some fs => fs.length > 0
     | none => false)

/-- The `FormData` built by `startWorkflow` (lines 358366): always
`requirement` and `repoUrl`; `targetClass` and `logsPasted` when truthy;
one `logFiles` part per file whenever the array is present. -/
def buildFormData (req : WorkflowRequest) : List (String × FormValue) :=
  [("requirement", .text req.requirement), ("repoUrl", .text req.repoUrl)]
    ++ (match req.targetClass with
        | some t => if t ≠ "" then [("targetClass", FormValue.text t)] else []
        | none => [])
    ++ (match req.logsPasted with
        | some s => if s ≠ "" then [("logsPasted", FormValue.text s)] else []
        | none => [])
    ++ (match req.logFiles with
        | some fs => fs.map fun f => ("logFiles", FormValue.filePart f)
        | none => [])

/-- One hexadecimal digit. -/
def hexDigit (n : Nat) : Char :=
  if n < 10 then Char.ofNat ('0'.toNat + n) else Char.ofNat ('a'.toNat + n - 10)

/-- `JSON.stringify` escaping of one character. -/
def jsonEscapeChar (c : Char) : List Char :=
  if c = '"' then ['\\', '"']
  else if c = '\\' then ['\\', '\\']
  else if c = '\n' then ['\\', 'n']
  else if c = '\r' then ['\\', 'r']
  else if c = '\t' then ['\\', 't']
  else if c = '\x08' then ['\\', 'b']
  else if c = '\x0c' then ['\\', 'f']
  else if c.toNat < 0x20 then
    ['\\', 'u', '0', '0', hexDigit (c.toNat / 16), hexDigit (c.toNat % 16)]
  else [c]

/-- `JSON.stringify` of a string value. -/
def jsonStr (s : String) : String :=
  "\"" ++ ⟨s.data.flatMap jsonEscapeChar⟩ ++ "\""

/-- `JSON.stringify(request)` for a `WorkflowRequest`: fields in
declaration order, `undefined` fields omitted, `File` objects serialized
as `\x7b\x7d` (no enumerable own properties). -/
def jsonStringifyWorkflowRequest (req : WorkflowRequest) : String :=
  "\x7b\"requirement\":" ++ jsonStr req.requirement
    ++ ",\"repoUrl\":" ++ jsonStr req.repoUrl
    ++ (match req.targetClass with
        | some t => ",\"targetClass\":" ++ jsonStr t
        | none => "")
    ++ (match req.logsPasted with
        | some s => ",\"logsPasted\":" ++ jsonStr s
        | none => "")
    ++ (match req.logFiles with
        | some fs =>
          ",\"logFiles\":[" ++ String.intercalate "," (fs.map fun _ => "\x7b\x7d") ++ "]"
        | none => "")
    ++ "\x7d"

/-- `request.requirement.trim().toLowerCase() === '/test'` (line 336). -/
def isSimulationRequirement (s : String) : Bool :=
  jsToLower (jsTrim s) = "/test"

/-- `sim_test_` (the `SIMULATION_PREFIX` constant, line 328). -/
def simulationPrefix : String := "sim_test_"

/-- What `startWorkflow` does before any response arrives: either resolve
locally with the simulated response (lines 335349, no network call), or
issue the HTTP POST with the computed headers and body (lines 352379). -/
inductive StartWorkflowAction
  | simulate (resp : WorkflowStatusResponse)
  | httpPost (headers : List (String × String)) (body : RequestBody)
deriving DecidableEq, Repr

/-- The request-construction half of `startWorkflow`
(src/services/workflowService.ts lines 334392); `now` models
`Date.now()`. -/
def startWorkflowAction (now : Nat) (req : WorkflowRequest) : StartWorkflowAction :=
  if isSimulationRequirement req.requirement then
    .simulate
      { conversationId := simulationPrefix ++ toString now
        status := .RUNNING
        message := "🧪 Simulation Started. Initializing agents..."
        agent := some "TestController"
        progress := some (5 / 100 : ℚ) }
  else if hasLogPayload req then
    .httpPost [] (.multipart (buildFormData req))
  else
    .httpPost [("Content-Type", "application/json")]
      (.json (jsonStringifyWorkflowRequest req))

/-! ### Backend Client: workflow stream (src/services/workflowService.ts) -/

/-- A raw SSE frame as seen by the handlers: either its `event.data`
decodes as a `WorkflowStatusResponse`, or it is malformed JSON. -/
inductive SSEFrame
  | ok (d : WorkflowStatusResponse)
  | malformed (raw : String)
deriving DecidableEq, Repr

/-- An observable action of a stream handler, in execution order. -/
inductive StreamAction
  | deliver (u : WorkflowStatusResponse)
  | closeES
deriving DecidableEq, Repr

/-- The `workflow-update` named-event handler of `connectToWorkflowStream`
(lines 458470): deliver the decoded update via `onUpdate`, then close the
`EventSource` when the status is COMPLETED or FAILED; malformed frames are
only logged. -/
def workflowNamedEventHandler : SSEFrame → List StreamAction
  | .malformed _ => []
  | .ok d =>
    if isTerminalStatus d.status then [.deliver d, .closeES] else [.deliver d]

/-- The default `onmessage` handler of `connectToWorkflowStream`
(lines 473488): identical to the named-event handler except that a
malformed frame is logged only when it looks like truncated JSON. -/
def workflowMessageHandler : SSEFrame → List StreamAction
  | .malformed _ => []
  | .ok d =>
    if isTerminalStatus d.status then [.deliver d, .closeES] else [.deliver d]

/-- The simulated stream steps of `connectToWorkflowStream`
(lines 407416). -/
structure SimStep where
  msg : String
  agent : String
  status : Option WorkflowStatus
deriving DecidableEq, Repr

/-- The `steps` array of the simulated stream. -/
def simSteps : List SimStep :=
  [ ⟨"Analyzing requirements...", "RequirementAnalyst", none⟩
  , ⟨"Scanning repository structure...", "RepoScanner", none⟩
  , ⟨"Identifying relevant files...", "ContextBuilder", none⟩
  , ⟨"Drafting solution plan...", "Architect", none⟩
  , ⟨"Generating code changes...", "CodeGenerator", none⟩
  , ⟨"Running static analysis...", "Reviewer", none⟩
  , ⟨"Finalizing response...", "System", none⟩
  , ⟨"Done. Simulation complete.", "System", some .COMPLETED⟩ ]

/-- The interval body of the simulated stream (lines 420441): one update
per step, `progress` incremented by 0.12 and capped at 1, the interval
cleared after a COMPLETED update or after the last step. -/
def simRun (cid : String) : List SimStep → ℚ → List WorkflowStatusResponse
  | [], _ => []
  | step :: rest, progress =>
    let progress' := if progress + 12 / 100 > 1 then 1 else progress + 12 / 100
    let u : WorkflowStatusResponse :=
      { conversationId := cid
        status := step.status.getD .RUNNING
        message := step.msg
        agent := some step.agent
        progress := some progress' }
    if u.status = .COMPLETED then [u] else u :: simRun cid rest progress'

/-- The full sequence of updates delivered by the simulated stream for a
`sim_test_` conversation id (initial `progress` is 0.05). -/
def simulationUpdates (cid : String) : List WorkflowStatusResponse :=
  simRun cid simSteps (5 / 100)

/-- What `connectToWorkflowStream` connects to (lines 397451): the local
simulated stream for `sim_test_` ids (no network), otherwise a real
`EventSource` on the stream URL. -/
inductive StreamConnectAction
  | simulated (updates : List WorkflowStatusResponse)
  | network (url : String)
deriving DecidableEq, Repr

/-- The base URL of the backend (`API_BASE_URL` from src/services/config,
not under src/; its value is irrelevant to the claims). -/
def apiBaseUrl : String := "http://localhost:8080/api"

/-- The connection decision of `connectToWorkflowStream`
(lines 403451). -/
def connectToWorkflowStreamAction (conversationId : String) : StreamConnectAction :=
  if jsStartsWith conversationId simulationPrefix then
    .simulated (simulationUpdates conversationId)
  else
    .network (apiBaseUrl ++ "/workflows/" ++ conversationId ++ "/stream")

/-! ### Backend Client: chat service (src/services/workflowService.ts, first half) -/

/-- `type` field of a decoded chat SSE frame (`chat-update` payload). -/
inductive ChatEventKind
  | CONNECTED
  | THINKING
  | TOOL
  | PARTIAL
  | COMPLETE
  | ERROR
  | unknown
deriving DecidableEq, Repr

/-- A decoded chat SSE frame:
`\x7b type, message?, tool?, content? \x7d` (line 127). -/
structure ChatFrameData where
  type : ChatEventKind
  message : Option String
  tool : Option String
  content : Option String
deriving DecidableEq, Repr

/-- `ChatStreamUpdate` from src/types.ts: the update records produced by
`chatService.connectToStream`. -/
structure ChatStreamUpdate where
  conversationId : String
  type : ChatEventKind
  status : WorkflowStatus
  agentName : Option String
  content : Option String
deriving DecidableEq, Repr

/-- An observable action of the chat stream handler, in execution
order. -/
inductive ChatAction
  | deliver (u : ChatStreamUpdate)
  | closeES
deriving DecidableEq, Repr

/-- `handleEvent` of `chatService.connectToStream` (lines 124200),
attached both to the `chat-update` named event and to `onmessage`
(lines 203204).  `fullContent` is the closed-over partial-token
accumulator; the result is the new accumulator plus the actions taken.
COMPLETE and ERROR frames close the `EventSource` after delivering the
update. -/
def chatHandleEvent (conversationId : String) (d : ChatFrameData)
    (fullContent : String) : String × List ChatAction :=
  match d.type with
  | .CONNECTED =>
    (fullContent, [.deliver ⟨conversationId, .CONNECTED, .RUNNING, some "System", none⟩])
  | .THINKING =>
    (fullContent,
      [.deliver ⟨conversationId, .THINKING, .RUNNING, some "System",
        some ("Thinking: " ++ jsTemplate d.message)⟩])
  | .TOOL =>
    (fullContent,
      [.deliver ⟨conversationId, .TOOL, .RUNNING, some "Tool",
        some ("Executing " ++ jsTemplate d.tool ++ ": " ++ jsTemplate d.message)⟩])
  | .PARTIAL =>
    let fc := fullContent ++ (d.content.getD "")
    (fc, [.deliver ⟨conversationId, .PARTIAL, .RUNNING, some "Assistant", some fc⟩])
  | .COMPLETE =>
    let fc := jsOrStr d.content fullContent
    (fc, [.deliver ⟨conversationId, .COMPLETE, .COMPLETED, some "Assistant", some fc⟩,
          .closeES])
  | .ERROR =>
    (fullContent,
      [.deliver ⟨conversationId, .ERROR, .FAILED, some "System",
        some ("Error: " ++ jsTemplate d.message)⟩,
       .closeES])
  | .unknown => (fullContent, [])

/-- The error-body information available to `handleApiError`
(lines 1427): the HTTP status, whether the `content-type` header
includes `application/json`, whether `response.json()` succeeds, and the
`message`/`error` fields of the parsed error body. -/
structure HttpErrorInfo where
  status : Nat
  contentTypeJson : Bool
  jsonParses : Bool
  errMessage : Option String
  errError : Option String
deriving DecidableEq, Repr

/-- The message of the `Error` thrown by the chat-side `handleApiError`
(lines 1427): `json.message || json.error || API Error (status)`. -/
def chatApiErrorMessage (r : HttpErrorInfo) : String :=
  let fallback := "API Error (" ++ toString r.status ++ ")"
  if r.contentTypeJson ∧ r.jsonParses then
    jsOrStr r.errMessage (jsOrStr r.errError fallback)
  else fallback

/-- Outcome of a `fetch` as observed by `chatService.deleteConversation`:
either the promise rejects (network failure) or a response arrives. -/
inductive DeleteFetch
  | reject (msg : String)
  | resolve (ok : Bool) (err : HttpErrorInfo)
deriving DecidableEq, Repr

/-- `chatService.deleteConversation` (lines 100105): no try/catch, so a
network rejection or a non-ok status propagates to the caller as an
error. -/
def chatDeleteConversation : DeleteFetch → Except String Unit
  | .reject m => .error m
  | .resolve ok err => if ok then .ok () else .error (chatApiErrorMessage err)

/-- `ConversationSummary` from src/types.ts (chat revision): timestamps
are ISO strings on the wire. -/
structure ConversationSummary where
  conversationId : String
  repoUrl : String
  status : String
  createdAt : String
  lastActivity : String
  messageCount : Nat
deriving DecidableEq, Repr

/-- Outcome of the `fetch` performed by `chatService.getConversations`:
rejection, or a response whose body either parses as the summary list or
fails to parse. -/
inductive ConvsFetch
  | reject (msg : String)
  | resolve (ok : Bool) (err : HttpErrorInfo) (body : Except String (List ConversationSummary))
deriving Repr

/-- The `try` block of `chatService.getConversations` (lines 5861):
throw via `handleApiError` on a non-ok status, otherwise return the parsed
body (or throw if parsing fails). -/
def getConversationsTry : ConvsFetch → Except String (List ConversationSummary)
  | .reject m => .error m
  | .resolve ok err body =>
    if ok then body else .error (chatApiErrorMessage err)

/-- `chatService.getConversations` (lines 5766): any error from the
`try` block is caught, logged, and replaced by the empty list. -/
def getConversations (f : ConvsFetch) : Except String (List ConversationSummary) :=
  match getConversationsTry f with
  | .ok l => .ok l
  | .error _ => .ok []

/-- The server list delivered successfully, when there is one. -/
def serverDeliveredList (f : ConvsFetch) : Option (List ConversationSummary) :=
  match f with
  | .resolve true _ (.ok l) => some l
  | _ => none

/-! ### Chat-based coordinator (src/unnamed/part_004) -/

/-- The state of the chat-based App revision touched by
`handleDeleteConversation` and `startNewChat` (src/unnamed/part_004):
the server-backed summary list, the focused conversation id, the rendered
messages (opaque here), and the composer/loading flags. -/
structure ChatAppState where
  conversationList : List ConversationSummary
  currentConversationId : Option String
  messages : List ChatMessage
  repoUrl : String
  isRepoLocked : Bool
  isLoading : Bool
deriving DecidableEq, Repr

/-- `startNewChat` from src/unnamed/part_004 (lines 188194). -/
def chatStartNewChat (st : ChatAppState) : ChatAppState :=
  { st with
      currentConversationId := none
      messages := []
      isRepoLocked := false
      isLoading := false
      repoUrl := "" }

/-- `handleDeleteConversation` from src/unnamed/part_004 (lines 248264):
nothing happens without user confirmation; on a successful backend delete
the summary is removed locally and, when it was the focused conversation,
the view resets to a new chat; on a rejected delete the state is left
untouched and one alert is shown.  The returned list is the sequence of
`alert` messages displayed. -/
def handleDeleteConversation (confirmed : Bool) (deleteResult : Except String Unit)
    (id : String) (st : ChatAppState) : ChatAppState × List String :=
  if ¬confirmed then (st, [])
  else
    match deleteResult with
    | .ok _ =>
      let st1 := { st with
        conversationList := st.conversationList.filter fun c => c.conversationId ≠ id }
      if st.currentConversationId = some id then (chatStartNewChat st1, [])
      else (st1, [])
    | .error _ => (st, ["Failed to delete conversation"])

/-! ### Persistence (src/App.tsx hydration and persistence effects)

The store holds `JSON.stringify(conversations)`; on the wire every `Date`
becomes its `toISOString()` value (`Date.prototype.toJSON`) and hydration
rebuilds it with `new Date(isoString)` (`src/App.tsx` lines 5568 and
9397).  `JSON.parse ∘ JSON.stringify` is the identity on the stored
shapes, so persistence is modelled at the typed level: stored records are
the in-memory records with each timestamp replaced by its ISO string. -/

/-- Days-since-epoch to civil date (proleptic Gregorian), the algorithm
used by `Date.prototype.toISOString` for non-negative timestamps. -/
def civilFromDays (z : Nat) : Nat × Nat × Nat :=
  let z' := z + 719468
  let era := z' / 146097
  let doe := z' % 146097
  let yoe := (doe - doe / 1460 + doe / 36524 - doe / 146096) / 365
  let y := yoe + era * 400
  let doy := doe - (365 * yoe + yoe / 4 - yoe / 100)
  let mp := (5 * doy + 2) / 153
  let d := doy - (153 * mp + 2) / 5 + 1
  let m := if mp < 10 then mp + 3 else mp - 9
  (if m ≤ 2 then y + 1 else y, m, d)

/-- Civil date to days since the epoch (inverse of `civilFromDays` on
valid dates). -/
def daysFromCivil (y m d : Nat) : Nat :=
  let y' := if m ≤ 2 then y - 1 else y
  let era := y' / 400
  let yoe := y' % 400
  let doy := (153 * (if m > 2 then m - 3 else m + 9) + 2) / 5 + d - 1
  let doe := yoe * 365 + yoe / 4 - yoe / 100 + doy
  era * 146097 + doe - 719468

/-- Zero-pad a number to two digits. -/
def pad2 (n : Nat) : String := if n < 10 then "0" ++ toString n else toString n

/-- Zero-pad a number to three digits. -/
def pad3 (n : Nat) : String :=
  if n < 10 then "00" ++ toString n
  else if n < 100 then "0" ++ toString n
  else toString n

/-- Zero-pad a number to four digits. -/
def pad4 (n : Nat) : String :=
  if n < 10 then "000" ++ toString n
  else if n < 100 then "00" ++ toString n
  else if n < 1000 then "0" ++ toString n
  else toString n

/-- `Date.prototype.toISOString` for a timestamp in milliseconds:
`YYYY-MM-DDTHH:MM:SS.mmmZ`. -/
def dateToIso (ms : Nat) : String :=
  let days := ms / 86400000
  let rem := ms % 86400000
  let ymd := civilFromDays days
  pad4 ymd.1 ++ "-" ++ pad2 ymd.2.1 ++ "-" ++ pad2 ymd.2.2
    ++ "T" ++ pad2 (rem / 3600000) ++ ":" ++ pad2 (rem % 3600000 / 60000)
    ++ ":" ++ pad2 (rem % 60000 / 1000) ++ "." ++ pad3 (rem % 1000) ++ "Z"

/-- Consume a run of decimal digits (at least one) from the front of a
character list. -/
def readNatChars : List Char → Option (Nat × List Char)
  | l =>
    let digits := l.takeWhile fun c => '0' ≤ c && c ≤ '9'
    let rest := l.dropWhile fun c => '0' ≤ c && c ≤ '9'
    if digits.isEmpty then none
    else some (digits.foldl (fun n c => n * 10 + (c.toNat - '0'.toNat)) 0, rest)

/-- Consume one expected character. -/
def expectChar (c : Char) : List Char → Option (List Char)
  | [] => none
  | x :: xs => if x = c then some xs else none

/-- `new Date(isoString).getTime()` for strings in the
`YYYY-MM-DDTHH:MM:SS.mmmZ` shape produced by `toISOString` (other strings
yield an invalid date, modelled as `none`). -/
def isoToDate (s : String) : Option Nat := do
  let (y, r1) ← readNatChars s.data
  let r2 ← expectChar '-' r1
  let (mo, r3) ← readNatChars r2
  let r4 ← expectChar '-' r3
  let (d, r5) ← readNatChars r4
  let r6 ← expectChar 'T' r5
  let (hh, r7) ← readNatChars r6
  let r8 ← expectChar ':' r7
  let (mi, r9) ← readNatChars r8
  let r10 ← expectChar ':' r9
  let (ss, r11) ← readNatChars r10
  let r12 ← expectChar '.' r11
  let (mms, r13) ← readNatChars r12
  let r14 ← expectChar 'Z' r13
  if r14.isEmpty then
    some (daysFromCivil y mo d * 86400000 + hh * 3600000 + mi * 60000 + ss * 1000 + mms)
  else none

/-- The ISO round trip of the JS runtime on one timestamp:
`new Date(d.toISOString()).getTime() = d.getTime()`. -/
def IsoRoundTrip (t : Nat) : Prop := isoToDate (dateToIso t) = some t

instance (t : Nat) : Decidable (IsoRoundTrip t) := by
  unfold IsoRoundTrip; infer_instance

/-- A `ChatMessage` as it sits in local storage: identical shape, with the
`Date` replaced by its ISO string. -/
structure StoredChatMessage where
  id : String
  sender : MessageSender
  content : String
  timestamp : String
  agent : Option String
  status : Option WorkflowStatus
  progress : Option ℚ
deriving DecidableEq, Repr

/-- A `Conversation` as it sits in local storage. -/
structure StoredConversation where
  id : String
  repoUrl : String
  messages : List StoredChatMessage
  timestamp : String
deriving DecidableEq, Repr

/-- Serialization of one message by the persistence effect
(`JSON.stringify`, src/App.tsx lines 9397). -/
def storeMessage (m : ChatMessage) : StoredChatMessage :=
  { id := m.id, sender := m.sender, content := m.content
    timestamp := dateToIso m.timestamp
    agent := m.agent, status := m.status, progress := m.progress }

/-- Serialization of one conversation by the persistence effect. -/
def storeConversation (c : Conversation) : StoredConversation :=
  { id := c.id, repoUrl := c.repoUrl
    messages := c.messages.map storeMessage
    timestamp := dateToIso c.timestamp }

/-- Serialization of the whole conversation list. -/
def storeConversations (cs : List Conversation) : List StoredConversation :=
  cs.map storeConversation

/-- `Option`-valued map used by hydration: all elements must decode. -/
def optionMapList (f : α → Option β) : List α → Option (List β)
  | [] => some []
  | a :: as =>
    match f a, optionMapList f as with
    | some b, some bs => some (b :: bs)
    | _, _ => none

/-- Hydration of one message (`src/App.tsx` line 61:
`\x7b ...m, timestamp: new Date(m.timestamp) \x7d`); `none` models an
invalid date. -/
def hydrateMessage (m : StoredChatMessage) : Option ChatMessage :=
  (isoToDate m.timestamp).map fun t =>
    { id := m.id, sender := m.sender, content := m.content, timestamp := t
      agent := m.agent, status := m.status, progress := m.progress }

/-- Hydration of one conversation (`src/App.tsx` lines 5862). -/
def hydrateConversation (c : StoredConversation) : Option Conversation :=
  match isoToDate c.timestamp, optionMapList hydrateMessage c.messages with
  | some t, some ms => some { id := c.id, repoUrl := c.repoUrl, messages := ms, timestamp := t }
  | _, _ => none

/-- Hydration of the stored conversation list. -/
def hydrateConversations (cs : List StoredConversation) : Option (List Conversation) :=
  optionMapList hydrateConversation cs

/-! ### Helper lemmas about the update folds -/

theorem applyUpdateToConvMessages_agent_tail (status : WorkflowStatusResponse) (now : Nat)
    (msgs : List ChatMessage) (lastMsg : ChatMessage)
    (hlast : msgs.getLast? = some lastMsg) (hag : lastMsg.sender = .agent) :
    applyUpdateToConvMessages status now msgs
      = msgs.dropLast ++ [updatedTailMessage lastMsg status] := by
  unfold applyUpdateToConvMessages
  split
  · next lm heq =>
    rw [hlast] at heq
    injection heq with h1
    subst h1
    rw [if_pos hag]
  · next heq =>
    rw [hlast] at heq
    cases heq

theorem applyUpdateToViewMessages_agent_tail (status : WorkflowStatusResponse) (now : Nat)
    (msgs : List ChatMessage) (lastMsg : ChatMessage)
    (hlast : msgs.getLast? = some lastMsg) (hag : lastMsg.sender = .agent) :
    applyUpdateToViewMessages status now msgs
      = msgs.dropLast ++ [updatedTailMessage lastMsg status] := by
  unfold applyUpdateToViewMessages
  split
  · next lm heq =>
    rw [hlast] at heq
    injection heq with h1
    subst h1
    rw [if_pos hag]
  · next heq =>
    rw [hlast] at heq
    cases heq

theorem applyUpdateToConvMessages_appends (status : WorkflowStatusResponse) (now : Nat)
    (msgs : List ChatMessage) (hne : status.message ≠ "")
    (htail : ∀ m, msgs.getLast? = some m → m.sender = .user) :
    applyUpdateToConvMessages status now msgs = msgs ++ [newAgentMessage status now] := by
  unfold applyUpdateToConvMessages
  split
  · next lm heq =>
    have hu := htail lm heq
    rw [if_neg (by rw [hu]; exact fun h => MessageSender.noConfusion h)]
    rw [if_pos ⟨hne, hu⟩]
  · next heq =>
    rw [List.getLast?_eq_none_iff] at heq
    subst heq
    rw [if_pos hne]
    rfl

theorem applyUpdateToViewMessages_appends (status : WorkflowStatusResponse) (now : Nat)
    (msgs : List ChatMessage) (hne : status.message ≠ "")
    (htail : ∀ m, msgs.getLast? = some m → m.sender ≠ .agent) :
    applyUpdateToViewMessages status now msgs = msgs ++ [newAgentMessage status now] := by
  unfold applyUpdateToViewMessages
  split
  · next lm heq =>
    rw [if_neg (htail lm heq)]
    rw [if_pos hne]
  · next heq =>
    rw [List.getLast?_eq_none_iff] at heq
    subst heq
    rw [if_pos hne]
    rfl

theorem handleWorkflowUpdate_conversations (status : WorkflowStatusResponse)
    (conversationId : String) (now : Nat) (st : CoordState) :
    (handleWorkflowUpdate status conversationId now st).conversations
      = updateConversations status now conversationId st.conversations := by
  unfold handleWorkflowUpdate
  split <;> rfl

/-! ### Claim C1 -/

/-- Claim C1 (focus isolation): a `StreamUpdate` for a conversation `B`
different from the focused one leaves the rendered `messages` state
unchanged, while `B`'s entry in the persisted conversation list is still
updated — its tail agent message now carries the update's content, status,
progress and agent (see `updatedTailMessage`). -/
theorem c1_focus_isolation (status : WorkflowStatusResponse) (conversationId : String)
    (now : Nat) (st : CoordState) (B : Conversation) (lastB : ChatMessage) :
    (st.currentConversationId ≠ some conversationId →
      (handleWorkflowUpdate status conversationId now st).messages = st.messages ∧
      (handleWorkflowUpdate status conversationId now st).isLoading = st.isLoading) ∧
    (B ∈ st.conversations → B.id = conversationId →
      B.messages.getLast? = some lastB → lastB.sender = .agent →
      ({ B with messages := B.messages.dropLast ++ [updatedTailMessage lastB status] }
          : Conversation)
        ∈ (handleWorkflowUpdate status conversationId now st).conversations ∧
      (B.messages.dropLast ++ [updatedTailMessage lastB status]).getLast?
        = some (updatedTailMessage lastB status)) := by
  constructor
  · intro hfocus
    unfold handleWorkflowUpdate
    rw [if_neg hfocus]
    exact ⟨rfl, rfl⟩
  · intro hB hid hlast hag
    refine ⟨?_, List.getLast?_concat _⟩
    rw [handleWorkflowUpdate_conversations]
    unfold updateConversations
    have hfB :
        (fun c : Conversation =>
          if c.id ≠ conversationId then c
          else { c with messages := applyUpdateToConvMessages status now c.messages }) B
        = { B with messages := B.messages.dropLast ++ [updatedTailMessage lastB status] } := by
      simp only [hid, ne_eq, not_true_eq_false, if_false]
      rw [applyUpdateToConvMessages_agent_tail status now B.messages lastB hlast hag]
    rw [← hfB]
    exact List.mem_map_of_mem _ hB

/-- Concrete data exercising the theorems: an update for conversation
`convB`. -/
def sampleUpdate : WorkflowStatusResponse :=
  ⟨"convB", .RUNNING, "Working on it", some "CodeGenerator", some (1 / 2 : ℚ)⟩

/-- A user message. -/
def sampleUserMsg : ChatMessage := ⟨"m1", .user, "fix bug", 50, none, none, none⟩

/-- An agent placeholder message. -/
def sampleAgentMsg : ChatMessage :=
  ⟨"m2", .agent, "Initializing...", 100, some "System", some .RUNNING, some 0⟩

/-- Conversation `convB`, whose tail is an agent message. -/
def sampleConvB : Conversation :=
  ⟨"convB", "https://github.com/acme/widgets", [sampleUserMsg, sampleAgentMsg], 100⟩

/-- A coordinator state focused on `convA` while `convB` is known. -/
def sampleStateAB : CoordState :=
  ⟨[⟨"convA", "https://github.com/acme/site", [], 10⟩, sampleConvB],
   some "convA", [sampleUserMsg], false⟩

/-- Witness for C1 at a concrete state: `convA` focused, update for
`convB`. -/
theorem c1_focus_isolation_witness :
    (handleWorkflowUpdate sampleUpdate "convB" 200 sampleStateAB).messages
        = sampleStateAB.messages ∧
    ({ sampleConvB with
        messages := sampleConvB.messages.dropLast
          ++ [updatedTailMessage sampleAgentMsg sampleUpdate] } : Conversation)
      ∈ (handleWorkflowUpdate sampleUpdate "convB" 200 sampleStateAB).conversations :=
  ⟨((c1_focus_isolation sampleUpdate "convB" 200 sampleStateAB sampleConvB
      sampleAgentMsg).1 (by decide)).1,
   ((c1_focus_isolation sampleUpdate "convB" 200 sampleStateAB sampleConvB
      sampleAgentMsg).2 (by decide) rfl (by decide) rfl).1⟩

/-! ### Claim C3 -/

/-- Claim C3 is false as stated: an update whose `message` is the empty
string is silently dropped when the tail is absent or not an agent message
(`status.message` is falsy, `src/App.tsx` lines 146 and 178).  At a
focused conversation with no messages, an empty-text update changes
neither the rendered message list nor the conversation list — nothing is
appended. -/
theorem c3_counterexample :
    (handleWorkflowUpdate ⟨"c1", .RUNNING, "", some "System", none⟩ "c1" 0
        ⟨[⟨"c1", "r", [], 5⟩], some "c1", [], true⟩).messages = [] ∧
    (handleWorkflowUpdate ⟨"c1", .RUNNING, "", some "System", none⟩ "c1" 0
        ⟨[⟨"c1", "r", [], 5⟩], some "c1", [], true⟩).conversations
      = [⟨"c1", "r", [], 5⟩] ∧
    ([] : List ChatMessage).getLast? = none := by
  exact ⟨by decide, by decide, rfl⟩

/-- Claim C3 as amended: for every update whose message text is
non-empty, applied where the tail message is absent or not an agent
message, both folds append a fresh agent message carrying the update's
content and status; updates with empty message text on such a tail are
dropped (see the counterexample). -/
theorem c3_no_silent_drop (status : WorkflowStatusResponse) (now : Nat)
    (msgs : List ChatMessage) (hne : status.message ≠ "")
    (htail : ∀ m, msgs.getLast? = some m → m.sender ≠ .agent) :
    applyUpdateToViewMessages status now msgs = msgs ++ [newAgentMessage status now] ∧
    applyUpdateToConvMessages status now msgs = msgs ++ [newAgentMessage status now] ∧
    (msgs ++ [newAgentMessage status now]).getLast? = some (newAgentMessage status now) ∧
    (newAgentMessage status now).content = status.message ∧
    (newAgentMessage status now).status = some status.status := by
  refine ⟨applyUpdateToViewMessages_appends status now msgs hne htail,
    applyUpdateToConvMessages_appends status now msgs hne ?_,
    List.getLast?_concat _, rfl, rfl⟩
  intro m hm
  have := htail m hm
  cases h : m.sender
  · rfl
  · exact absurd h this

/-- Witness for the amended C3: a non-empty update appended after a
user-message tail. -/
theorem c3_no_silent_drop_witness :
    applyUpdateToViewMessages sampleUpdate 200 [sampleUserMsg]
      = [sampleUserMsg] ++ [newAgentMessage sampleUpdate 200] :=
  (c3_no_silent_drop sampleUpdate 200 [sampleUserMsg] (by decide)
    (by intro m hm; injection hm with h; subst h; decide)).1

/-! ### Helper lemmas about the stream table -/

theorem mapGet_eq_none_iff (l : List (String × Nat)) (id : String) :
    mapGet l id = none ↔ ∀ p ∈ l, p.1 ≠ id := by
  induction l with
  | nil => simp [mapGet]
  | cons hd tl ih =>
    obtain ⟨k, v⟩ := hd
    by_cases hk : k = id
    · subst hk
      simp [mapGet]
    · simp [mapGet, hk, ih]

theorem mapGet_mem (l : List (String × Nat)) (id : String) (h : Nat)
    (hget : mapGet l id = some h) : (id, h) ∈ l := by
  induction l with
  | nil => cases hget
  | cons hd tl ih =>
    obtain ⟨k, v⟩ := hd
    by_cases hk : k = id
    · subst hk
      unfold mapGet at hget
      rw [if_pos rfl] at hget
      injection hget with hv
      subst hv
      exact List.mem_cons_self _ _
    · unfold mapGet at hget
      rw [if_neg hk] at hget
      exact List.mem_cons_of_mem _ (ih hget)

theorem mapSet_append_of_absent (l : List (String × Nat)) (id : String) (v : Nat)
    (h : ∀ p ∈ l, p.1 ≠ id) : mapSet l id v = l ++ [(id, v)] := by
  induction l with
  | nil => rfl
  | cons hd tl ih =>
    obtain ⟨k, w⟩ := hd
    have hk : k ≠ id := h (k, w) (List.mem_cons_self _ _)
    unfold mapSet
    rw [if_neg hk]
    rw [ih fun p hp => h p (List.mem_cons_of_mem _ hp)]
    rfl

theorem mapDelete_keys (l : List (String × Nat)) (id : String) :
    ∀ p ∈ mapDelete l id, p.1 ≠ id := by
  intro p hp
  have := List.of_mem_filter hp
  simpa using this

theorem mapDelete_sublist (l : List (String × Nat)) (id : String) :
    (mapDelete l id).Sublist l := List.filter_sublist l

theorem mapGet_unique (l : List (String × Nat)) (id : String) (h : Nat)
    (hnd : (l.map Prod.fst).Nodup) (hget : mapGet l id = some h) :
    ∀ p ∈ l, p.1 = id → p.2 = h := by
  induction l with
  | nil => intro p hp; cases hp
  | cons hd tl ih =>
    obtain ⟨k, v⟩ := hd
    simp only [List.map_cons, List.nodup_cons] at hnd
    obtain ⟨hknot, hndtl⟩ := hnd
    intro p hp hpid
    by_cases hk : k = id
    · subst hk
      unfold mapGet at hget
      rw [if_pos rfl] at hget
      injection hget with hv
      subst hv
      rcases List.mem_cons.mp hp with hp1 | hp1
      · rw [hp1]
      · exact absurd (hpid ▸ List.mem_map_of_mem Prod.fst hp1) hknot
    · unfold mapGet at hget
      rw [if_neg hk] at hget
      rcases List.mem_cons.mp hp with hp1 | hp1
      · exact absurd hpid (by rw [hp1]; exact hk)
      · exact ih hndtl hget p hp1 hpid

theorem filter_handle_eq_mapDelete (l : List (String × Nat)) (id : String) (h : Nat)
    (hnd : (l.map Prod.fst).Nodup) (hget : mapGet l id = some h) :
    (l.filter fun p => ¬(p.1 = id ∧ p.2 = h)) = mapDelete l id := by
  unfold mapDelete
  apply List.filter_congr
  intro p hp
  by_cases hpid : p.1 = id
  · have hph : p.2 = h := mapGet_unique l id h hnd hget p hp hpid
    simp [hpid, hph]
  · simp [hpid]

theorem closeStream_nextHandle (id : String) (s : StreamTable) :
    (closeStream id s).nextHandle = s.nextHandle := by
  unfold closeStream
  cases mapGet s.table id <;> rfl

theorem closeStream_get_none (id : String) (s : StreamTable) :
    mapGet (closeStream id s).table id = none := by
  unfold closeStream
  cases hg : mapGet s.table id with
  | none => exact hg
  | some h => exact (mapGet_eq_none_iff _ _).mpr (mapDelete_keys s.table id)

theorem closeStream_inv (id : String) (s : StreamTable) (hinv : StreamInv s) :
    StreamInv (closeStream id s) := by
  obtain ⟨hopen, hnd, hb⟩ := hinv
  unfold closeStream
  cases hg : mapGet s.table id with
  | none => exact ⟨hopen, hnd, hb⟩
  | some h =>
    refine ⟨?_, ?_, ?_⟩
    · show s.openHandles.filter _ = mapDelete s.table id
      rw [hopen]
      exact filter_handle_eq_mapDelete s.table id h hnd hg
    · exact hnd.sublist ((mapDelete_sublist s.table id).map Prod.fst)
    · intro p hp
      exact hb p ((mapDelete_sublist s.table id).mem hp)

theorem connectStream_inv (id : String) (s : StreamTable) (hinv : StreamInv s)
    (hg : mapGet s.table id = none) : StreamInv (connectStream id s) := by
  obtain ⟨hopen, hnd, hb⟩ := hinv
  have hkeys : ∀ p ∈ s.table, p.1 ≠ id := (mapGet_eq_none_iff _ _).mp hg
  have hset : mapSet s.table id s.nextHandle = s.table ++ [(id, s.nextHandle)] :=
    mapSet_append_of_absent _ _ _ hkeys
  refine ⟨?_, ?_, ?_⟩
  · show s.openHandles ++ [(id, s.nextHandle)] = mapSet s.table id s.nextHandle
    rw [hset, hopen]
  · show ((mapSet s.table id s.nextHandle).map Prod.fst).Nodup
    rw [hset]
    simp only [List.map_append, List.map_cons, List.map_nil]
    rw [List.nodup_append]
    refine ⟨hnd, List.nodup_singleton id, ?_⟩
    intro a ha hmem
    rw [List.mem_singleton] at hmem
    subst hmem
    obtain ⟨p, hp, hpa⟩ := List.mem_map.mp ha
    exact hkeys p hp hpa
  · show ∀ p ∈ mapSet s.table id s.nextHandle, p.2 < s.nextHandle + 1
    rw [hset]
    intro p hp
    rcases List.mem_append.mp hp with hmem | hmem
    · exact Nat.lt_succ_of_lt (hb p hmem)
    · rw [List.mem_singleton] at hmem
      subst hmem
      exact Nat.lt_succ_self _

theorem streamStep_inv (s : StreamTable) (op : StreamOp) (hinv : StreamInv s) :
    StreamInv (streamStep s op) := by
  cases op with
  | send id =>
    exact connectStream_inv id _ (closeStream_inv id s hinv) (closeStream_get_none id s)
  | load id serverRunning =>
    cases serverRunning with
    | false => exact closeStream_inv id s hinv
    | true =>
      show StreamInv (if (mapGet s.table id).isSome then s else connectStream id s)
      cases hg : mapGet s.table id with
      | some h => simpa using hinv
      | none => simpa using connectStream_inv id s hinv hg
  | update id terminal =>
    cases terminal with
    | true => exact closeStream_inv id s hinv
    | false => exact hinv
  | errorEvt id => exact closeStream_inv id s hinv

theorem streamRun_inv (ops : List StreamOp) : StreamInv (streamRun ops) := by
  have hgen : ∀ (l : List StreamOp) (s : StreamTable), StreamInv s →
      StreamInv (l.foldl streamStep s) := by
    intro l
    induction l with
    | nil => intro s hs; exact hs
    | cons op rest ih =>
      intro s hs
      exact ih _ (streamStep_inv s op hs)
  refine hgen ops ⟨[], [], 0⟩ ⟨rfl, List.nodup_nil, ?_⟩
  intro p hp
  cases hp

theorem filter_key_length_le_one (l : List (String × Nat))
    (hnd : (l.map Prod.fst).Nodup) (id : String) :
    (l.filter fun p => p.1 = id).length ≤ 1 := by
  induction l with
  | nil => simp
  | cons hd tl ih =>
    obtain ⟨k, v⟩ := hd
    simp only [List.map_cons, List.nodup_cons] at hnd
    obtain ⟨hknot, hndtl⟩ := hnd
    rw [List.filter_cons]
    by_cases hk : k = id
    · subst hk
      have htl : (tl.filter fun p => p.1 = k).length = 0 := by
        rw [List.length_eq_zero]
        rw [List.filter_eq_nil_iff]
        intro p hp
        simp only [decide_eq_true_eq]
        intro hcontra
        exact hknot (hcontra ▸ List.mem_map_of_mem Prod.fst hp)
      simp only [decide_True, if_true, List.length_cons, htl]
      omega
    · simp only [hk, decide_False, Bool.false_eq_true, if_false]
      exact ih hndtl

/-! ### Claim C2 -/

/-- Claim C2 (at most one live subscription per conversation): after any
sequence of send-message, load-conversation, stream-update and close
operations the active-stream bookkeeping holds at most one open handle per
conversation id; moreover a further `send` for `id` (which connects again)
leaves exactly one open handle for `id`, and the previously-held handle,
if any, is closed by it. -/
theorem c2_at_most_one_live_subscription (ops : List StreamOp) (id : String) :
    openCount (streamRun ops) id ≤ 1 ∧
    openCount (streamStep (streamRun ops) (.send id)) id = 1 ∧
    ∀ h, mapGet (streamRun ops).table id = some h →
      (id, h) ∉ (streamStep (streamRun ops) (.send id)).openHandles := by
  obtain ⟨hopen, hnd, hb⟩ := streamRun_inv ops
  have hinv1 := closeStream_inv id (streamRun ops) ⟨hopen, hnd, hb⟩
  have hg1 := closeStream_get_none id (streamRun ops)
  obtain ⟨hopen1, hnd1, hb1⟩ := hinv1
  refine ⟨?_, ?_, ?_⟩
  · unfold openCount
    rw [hopen]
    exact filter_key_length_le_one _ hnd id
  · show openCount (connectStream id (closeStream id (streamRun ops))) id = 1
    unfold openCount connectStream
    rw [List.filter_append]
    have hempty : ((closeStream id (streamRun ops)).openHandles.filter
        fun p => p.1 = id) = [] := by
      rw [hopen1]
      rw [List.filter_eq_nil_iff]
      intro p hp
      simp only [decide_eq_true_eq]
      exact (mapGet_eq_none_iff _ _).mp hg1 p hp
    rw [hempty]
    simp
  · intro h hget hmem
    have hlt : h < (streamRun ops).nextHandle := hb (id, h) (mapGet_mem _ _ _ hget)
    have hmem2 : (id, h) ∈ (closeStream id (streamRun ops)).openHandles
        ++ [(id, (closeStream id (streamRun ops)).nextHandle)] := hmem
    rcases List.mem_append.mp hmem2 with h1 | h1
    · rw [hopen1] at h1
      exact (mapGet_eq_none_iff _ _).mp hg1 (id, h) h1 rfl
    · have h2 : h = (closeStream id (streamRun ops)).nextHandle :=
        congrArg Prod.snd (List.mem_singleton.mp h1)
      rw [closeStream_nextHandle] at h2
      omega

/-- Witness for C2: after `send "c1"` the held handle is `0`; a second
`send "c1"` closes it. -/
theorem c2_at_most_one_live_subscription_witness :
    ("c1", 0) ∉ (streamStep (streamRun [StreamOp.send "c1"]) (.send "c1")).openHandles :=
  (c2_at_most_one_live_subscription [StreamOp.send "c1"] "c1").2.2 0 (by decide)

/-! ### Claim C4 -/

/-- Claim C4 (the Backend Client closes its own stream on terminal
frames): a decoded workflow frame with status COMPLETED or FAILED makes
both the named-event handler and the default message handler deliver the
update and then close the `EventSource`; likewise the chat stream handler
closes the channel right after delivering the COMPLETED/FAILED update
produced by a COMPLETE or ERROR frame. -/
theorem c4_terminal_frame_closes_stream (d : WorkflowStatusResponse)
    (hterm : isTerminalStatus d.status = true)
    (cid fullContent : String) (fd : ChatFrameData)
    (hfd : fd.type = .COMPLETE ∨ fd.type = .ERROR) :
    workflowNamedEventHandler (.ok d) = [.deliver d, .closeES] ∧
    workflowMessageHandler (.ok d) = [.deliver d, .closeES] ∧
    ∃ u : ChatStreamUpdate,
      (chatHandleEvent cid fd fullContent).2 = [.deliver u, .closeES] ∧
      (u.status = .COMPLETED ∨ u.status = .FAILED) := by
  refine ⟨?_, ?_, ?_⟩
  · simp [workflowNamedEventHandler, hterm]
  · simp [workflowMessageHandler, hterm]
  · obtain ⟨ty, msg, tool, content⟩ := fd
    rcases hfd with hty | hty <;> simp only at hty <;> subst hty
    · exact ⟨_, rfl, Or.inl rfl⟩
    · exact ⟨_, rfl, Or.inr rfl⟩

/-- Witness for C4: a COMPLETED workflow frame and a COMPLETE chat
frame. -/
theorem c4_terminal_frame_closes_stream_witness :
    workflowNamedEventHandler
        (.ok ⟨"c1", .COMPLETED, "done", some "System", some 1⟩)
      = [.deliver ⟨"c1", .COMPLETED, "done", some "System", some 1⟩, .closeES] :=
  (c4_terminal_frame_closes_stream ⟨"c1", .COMPLETED, "done", some "System", some 1⟩
    (by decide) "c1" "" ⟨.COMPLETE, none, none, some "done"⟩ (Or.inl rfl)).1

/-! ### Claim C5 -/

/-- The property asserted by claim C5, as stated: every request carrying a
log payload is sent as a multipart form with no JSON content-type header,
and every request without one is sent as JSON with the JSON content-type
header. -/
def StartWorkflowEncodingClaim (now : Nat) (req : WorkflowRequest) : Prop :=
  (hasLogPayload req = true →
    ∃ parts, startWorkflowAction now req = .httpPost [] (.multipart parts)) ∧
  (hasLogPayload req = false →
    ∃ s, startWorkflowAction now req
      = .httpPost [("Content-Type", "application/json")] (.json s))

/-- A request that carries a log file but whose requirement is `/test`. -/
def simLogRequest : WorkflowRequest :=
  ⟨"/test", "https://github.com/a/b", none, none, some ["app.log"]⟩

/-- `true` exactly on the `simulate` action. -/
def StartWorkflowAction.isSimulate : StartWorkflowAction → Bool
  | .simulate _ => true
  | _ => false

/-- Claim C5 is false as stated: a request whose requirement is `/test`
(after trimming and lowercasing) is intercepted by the hidden simulation
mode before any encoding happens, even when it carries a log file, so no
multipart request is issued for it. -/
theorem c5_counterexample :
    hasLogPayload simLogRequest = true ∧ ¬ StartWorkflowEncodingClaim 0 simLogRequest := by
  refine ⟨by decide, fun h => ?_⟩
  obtain ⟨parts, hp⟩ := h.1 (by decide)
  have h1 : (startWorkflowAction 0 simLogRequest).isSimulate = true := by decide
  rw [hp] at h1
  simp [StartWorkflowAction.isSimulate] at h1

/-- Claim C5 as amended: restricted to requests that do not trigger the
`/test` simulation mode, the encoding dichotomy holds exactly as claimed:
a log payload yields a multipart body with the `requirement`, `repoUrl`,
(truthy) `targetClass` and `logsPasted` fields and one `logFiles` part per
file, with no headers set; no log payload yields the JSON serialization of
the request with the JSON content-type header. -/
theorem c5_request_encoding (now : Nat) (req : WorkflowRequest)
    (hsim : isSimulationRequirement req.requirement = false) :
    (hasLogPayload req = true →
      startWorkflowAction now req = .httpPost [] (.multipart (buildFormData req)) ∧
      ("requirement", FormValue.text req.requirement) ∈ buildFormData req ∧
      ("repoUrl", FormValue.text req.repoUrl) ∈ buildFormData req ∧
      (∀ t, req.targetClass = some t → t ≠ "" →
        ("targetClass", FormValue.text t) ∈ buildFormData req) ∧
      (∀ s, req.logsPasted = some s → s ≠ "" →
        ("logsPasted", FormValue.text s) ∈ buildFormData req) ∧
      (∀ fs f, req.logFiles = some fs → f ∈ fs →
        ("logFiles", FormValue.filePart f) ∈ buildFormData req)) ∧
    (hasLogPayload req = false →
      startWorkflowAction now req
        = .httpPost [("Content-Type", "application/json")]
            (.json (jsonStringifyWorkflowRequest req))) := by
  constructor
  · intro hlogs
    refine ⟨?_, ?_, ?_, ?_, ?_, ?_⟩
    · unfold startWorkflowAction
      rw [if_neg (by rw [hsim]; exact fun h => Bool.noConfusion h)]
      rw [if_pos hlogs]
    · simp [buildFormData]
    · simp [buildFormData]
    · intro t ht htne
      simp [buildFormData, ht, htne]
    · intro s hs hsne
      simp [buildFormData, hs, hsne]
    · intro fs f hfs hf
      simp only [buildFormData, hfs]
      refine List.mem_append.mpr (Or.inr ?_)
      exact List.mem_map_of_mem _ hf
  · intro hlogs
    unfold startWorkflowAction
    rw [if_neg (by rw [hsim]; exact fun h => Bool.noConfusion h)]
    rw [if_neg (by rw [hlogs]; exact fun h => Bool.noConfusion h)]

/-- A non-simulation request with one log file. -/
def multipartRequest : WorkflowRequest :=
  ⟨"fix bug", "https://github.com/acme/widgets", none, none, some ["trace.log"]⟩

/-- Witness for the amended C5: the log-file request is encoded as a
multipart form without headers. -/
theorem c5_request_encoding_witness :
    startWorkflowAction 7 multipartRequest
      = .httpPost [] (.multipart (buildFormData multipartRequest)) :=
  ((c5_request_encoding 7 multipartRequest (by decide)).1 (by decide)).1

/-! ### Claim C6 -/

theorem hydrateMessage_storeMessage (m : ChatMessage) (h : IsoRoundTrip m.timestamp) :
    hydrateMessage (storeMessage m) = some m := by
  simp only [hydrateMessage, storeMessage]
  rw [(h : isoToDate (dateToIso m.timestamp) = some m.timestamp)]
  rfl

theorem optionMapList_cons (f : α → Option β) (a : α) (l : List α) :
    optionMapList f (a :: l)
      = match f a, optionMapList f l with
        | some b, some bs => some (b :: bs)
        | _, _ => none := rfl

theorem optionMapList_hydrate_store (ms : List ChatMessage)
    (h : ∀ m ∈ ms, IsoRoundTrip m.timestamp) :
    optionMapList hydrateMessage (ms.map storeMessage) = some ms := by
  induction ms with
  | nil => rfl
  | cons m rest ih =>
    have h1 : hydrateMessage (storeMessage m) = some m :=
      hydrateMessage_storeMessage m (h m (List.mem_cons_self _ _))
    have h2 : optionMapList hydrateMessage (rest.map storeMessage) = some rest :=
      ih fun x hx => h x (List.mem_cons_of_mem _ hx)
    rw [List.map_cons, optionMapList_cons, h1, h2]

theorem hydrateConversation_eq (sc : StoredConversation) (t : Nat) (ms : List ChatMessage)
    (h1 : isoToDate sc.timestamp = some t)
    (h2 : optionMapList hydrateMessage sc.messages = some ms) :
    hydrateConversation sc = some ⟨sc.id, sc.repoUrl, ms, t⟩ := by
  unfold hydrateConversation
  rw [h1, h2]

theorem hydrateConversation_storeConversation (c : Conversation)
    (ht : IsoRoundTrip c.timestamp)
    (hm : ∀ m ∈ c.messages, IsoRoundTrip m.timestamp) :
    hydrateConversation (storeConversation c) = some c := by
  have h1 : isoToDate (storeConversation c).timestamp = some c.timestamp := ht
  have h2 : optionMapList hydrateMessage (storeConversation c).messages
      = some c.messages := optionMapList_hydrate_store c.messages hm
  rw [hydrateConversation_eq (storeConversation c) c.timestamp c.messages h1 h2]
  rfl

theorem hydrateConversations_storeConversations (convs : List Conversation)
    (h : ∀ c ∈ convs, IsoRoundTrip c.timestamp ∧
      ∀ m ∈ c.messages, IsoRoundTrip m.timestamp) :
    hydrateConversations (storeConversations convs) = some convs := by
  induction convs with
  | nil => rfl
  | cons c rest ih =>
    have h1 : hydrateConversation (storeConversation c) = some c :=
      hydrateConversation_storeConversation c (h c (List.mem_cons_self _ _)).1
        (h c (List.mem_cons_self _ _)).2
    have h2 : optionMapList hydrateConversation (rest.map storeConversation) = some rest :=
      ih fun x hx => h x (List.mem_cons_of_mem _ hx)
    show optionMapList hydrateConversation
      (storeConversation c :: rest.map storeConversation) = some (c :: rest)
    rw [optionMapList_cons, h1, h2]

/-- Claim C6 (round-trip persistence): for every conversation list whose
timestamps survive the JS `Date` ISO round trip (`IsoRoundTrip`, true of
every real `Date` value), serializing to the store and rehydrating yields
the very same records — in particular the same number of messages with
timestamps equal in value — and the stored record keeps one entry per
message. -/
theorem c6_round_trip_persistence (convs : List Conversation)
    (h : ∀ c ∈ convs, IsoRoundTrip c.timestamp ∧
      ∀ m ∈ c.messages, IsoRoundTrip m.timestamp) :
    hydrateConversations (storeConversations convs) = some convs ∧
    ∀ c ∈ convs, ((storeConversation c).messages).length = c.messages.length := by
  refine ⟨hydrateConversations_storeConversations convs h, ?_⟩
  intro c hc
  simp [storeConversation]

/-- A concrete persisted conversation list with two dated messages. -/
def persistedSampleConvs : List Conversation :=
  [⟨"convB", "https://github.com/acme/widgets",
    [⟨"m1", .user, "fix bug", 1700000000123, none, none, none⟩,
     ⟨"m2", .agent, "done", 1700000001456, some "System", some .COMPLETED, some 1⟩],
    1700000002000⟩]

/-- Witness for C6: the sample list survives the store round trip. -/
theorem c6_round_trip_persistence_witness :
    hydrateConversations (storeConversations persistedSampleConvs)
      = some persistedSampleConvs :=
  (c6_round_trip_persistence persistedSampleConvs (by decide)).1

/-! ### Claim C7 -/

/-- Claim C7 (delete-failure atomicity): when the backend DELETE rejects,
`handleDeleteConversation` leaves the whole state untouched (summary list
unchanged, the focused conversation still loaded) and shows exactly one
alert; local removal — and the reset to a new chat when the target was
focused — happen only when the delete call succeeds. -/
theorem c7_delete_failure_atomicity (id : String) (st : ChatAppState) (f : DeleteFetch) :
    (∀ e, chatDeleteConversation f = .error e →
      handleDeleteConversation true (chatDeleteConversation f) id st
        = (st, ["Failed to delete conversation"])) ∧
    (chatDeleteConversation f = .ok () →
      (handleDeleteConversation true (chatDeleteConversation f) id st).2 = [] ∧
      (handleDeleteConversation true (chatDeleteConversation f) id st).1.conversationList
        = st.conversationList.filter (fun c => c.conversationId ≠ id) ∧
      (st.currentConversationId = some id →
        (handleDeleteConversation true (chatDeleteConversation f) id st).1.currentConversationId
            = none ∧
        (handleDeleteConversation true (chatDeleteConversation f) id st).1.messages = []) ∧
      (st.currentConversationId ≠ some id →
        (handleDeleteConversation true (chatDeleteConversation f) id st).1.currentConversationId
            = st.currentConversationId ∧
        (handleDeleteConversation true (chatDeleteConversation f) id st).1.messages
            = st.messages)) := by
  constructor
  · intro e he
    rw [he]
    rfl
  · intro hok
    rw [hok]
    unfold handleDeleteConversation
    simp only [not_true_eq_false, if_false]
    by_cases hcur : st.currentConversationId = some id
    · rw [if_pos hcur]
      exact ⟨rfl, rfl, fun _ => ⟨rfl, rfl⟩, fun hne => absurd hcur hne⟩
    · rw [if_neg hcur]
      exact ⟨rfl, rfl, fun hc => absurd hc hcur, fun _ => ⟨rfl, rfl⟩⟩

/-- A chat state with two known conversations, `c1` focused. -/
def sampleChatState : ChatAppState :=
  ⟨[⟨"c1", "https://github.com/a/b", "ACTIVE", "t0", "t1", 3⟩,
    ⟨"c2", "https://github.com/a/c", "COMPLETED", "t0", "t1", 5⟩],
   some "c1", [sampleUserMsg], "https://github.com/a/b", true, false⟩

/-- Witness for C7: a rejected DELETE leaves the state unchanged and shows
the alert. -/
theorem c7_delete_failure_atomicity_witness :
    handleDeleteConversation true (chatDeleteConversation (.reject "network down"))
        "c1" sampleChatState
      = (sampleChatState, ["Failed to delete conversation"]) :=
  (c7_delete_failure_atomicity "c1" sampleChatState (.reject "network down")).1
    "network down" rfl

/-! ### Claim C10 -/

/-- Claim C10 (`getConversations` never rejects): whatever the fetch
outcome — rejection, non-ok status, unparsable body or a good response —
`chatService.getConversations` resolves, either with the server's list or
with the empty list. -/
theorem c10_getConversations_never_rejects (f : ConvsFetch) :
    ∃ l, getConversations f = .ok l ∧
      (serverDeliveredList f = some l ∨ l = []) := by
  cases f with
  | reject m => exact ⟨[], rfl, Or.inr rfl⟩
  | resolve ok err body =>
    cases ok with
    | true =>
      cases body with
      | ok l => exact ⟨l, rfl, Or.inl rfl⟩
      | error e => exact ⟨[], rfl, Or.inr rfl⟩
    | false => exact ⟨[], rfl, Or.inr rfl⟩

/-! ### Claim C9 -/

theorem stripPrefixChars_append (p l : List Char) :
    stripPrefixChars p (p ++ l) = some l := by
  induction p with
  | nil => rfl
  | cons c cs ih => simp [stripPrefixChars, ih]

theorem jsStartsWith_append (pre s : String) : jsStartsWith (pre ++ s) pre = true := by
  unfold jsStartsWith
  rw [show (pre ++ s).data = pre.data ++ s.data from rfl]
  rw [stripPrefixChars_append]
  rfl

/-- Claim C9 (hidden simulation mode): a request whose trimmed,
lowercased requirement is `/test` makes `startWorkflow` resolve locally
(no HTTP POST) with a RUNNING response whose conversation id starts with
`sim_test_`; and `connectToWorkflowStream` on any `sim_test_` id opens no
network connection, delivering instead the fixed simulated update sequence
whose final update is COMPLETED. -/
theorem c9_simulation_mode (now : Nat) (req : WorkflowRequest)
    (hreq : isSimulationRequirement req.requirement = true)
    (id : String) (hid : jsStartsWith id simulationPrefix = true) :
    (∃ resp, startWorkflowAction now req = .simulate resp ∧
      jsStartsWith resp.conversationId simulationPrefix = true ∧
      resp.status = .RUNNING) ∧
    (∃ updates, connectToWorkflowStreamAction id = .simulated updates ∧
      updates ≠ [] ∧
      updates.getLast?.map (fun u => u.status) = some .COMPLETED) := by
  constructor
  · refine ⟨⟨simulationPrefix ++ toString now, .RUNNING,
        "🧪 Simulation Started. Initializing agents...",
        some "TestController", some (5 / 100 : ℚ)⟩,
      ?_, jsStartsWith_append simulationPrefix (toString now), rfl⟩
    unfold startWorkflowAction
    rw [hreq]
    rfl
  · refine ⟨simulationUpdates id, ?_, ?_, ?_⟩
    · unfold connectToWorkflowStreamAction
      rw [hid]
      rfl
    · intro hnil
      have hlast : (simulationUpdates id).getLast?.map (fun u => u.status)
          = some .COMPLETED := rfl
      rw [hnil] at hlast
      cases hlast
    · rfl

/-- Witness for C9: the `/test` requirement and a `sim_test_` id. -/
theorem c9_simulation_mode_witness :
    ∃ updates, connectToWorkflowStreamAction "sim_test_1" = .simulated updates ∧
      updates ≠ [] ∧
      updates.getLast?.map (fun u => u.status) = some .COMPLETED :=
  (c9_simulation_mode 0 ⟨" /TEST ", "https://github.com/a/b", none, none, none⟩
    (by decide) "sim_test_1" (by decide)).2

/-! ### Claim C8 -/

theorem dropWhile_ne_nil_of_exists {p : Char → Bool} {l : List Char}
    (h : ∃ c ∈ l, p c = false) : l.dropWhile p ≠ [] := by
  intro hnil
  rw [List.dropWhile_eq_nil_iff] at hnil
  obtain ⟨c, hc, hpc⟩ := h
  rw [hnil c hc] at hpc
  cases hpc

theorem dropWhile_append_of_exists {p : Char → Bool} {l1 l2 : List Char}
    (h : ∃ c ∈ l1, p c = false) :
    (l1 ++ l2).dropWhile p = l1.dropWhile p ++ l2 := by
  rw [List.dropWhile_append]
  rw [if_neg ?_]
  have hne := dropWhile_ne_nil_of_exists h
  simp only [List.isEmpty_iff]
  exact hne

theorem rdropWhile_append_of_exists {l1 l2 : List Char}
    (h : ∃ c ∈ l2, jsWhitespace c = false) :
    rdropWhileChars jsWhitespace (l1 ++ l2)
      = l1 ++ rdropWhileChars jsWhitespace l2 := by
  unfold rdropWhileChars
  rw [List.reverse_append]
  rw [dropWhile_append_of_exists (by
    obtain ⟨c, hc, hp⟩ := h
    exact ⟨c, List.mem_reverse.mpr hc, hp⟩)]
  rw [List.reverse_append, List.reverse_reverse]

theorem rdropWhile_ne_nil {l : List Char}
    (h : ∃ c ∈ l, jsWhitespace c = false) :
    rdropWhileChars jsWhitespace l ≠ [] := by
  unfold rdropWhileChars
  intro hnil
  rw [List.reverse_eq_nil_iff] at hnil
  refine dropWhile_ne_nil_of_exists ?_ hnil
  obtain ⟨c, hc, hp⟩ := h
  exact ⟨c, List.mem_reverse.mpr hc, hp⟩

theorem rdropWhile_subset {l : List Char} :
    ∀ c ∈ rdropWhileChars jsWhitespace l, c ∈ l := by
  intro c hc
  unfold rdropWhileChars at hc
  rw [List.mem_reverse] at hc
  exact List.mem_reverse.mp (List.Sublist.mem hc (List.dropWhile_sublist _))

theorem string_ne_empty_of_data_cons (s : String) (c : Char) (t : List Char)
    (h : s.data = c :: t) : s ≠ "" := by
  intro he
  rw [he] at h
  cases h

theorem trimChars_append_of_head_not_ws (l1 l2 : List Char) (c : Char) (t : List Char)
    (hl1 : l1 = c :: t) (hc : jsWhitespace c = false)
    (h : ∃ d ∈ l2, jsWhitespace d = false) :
    trimChars (l1 ++ l2) = l1 ++ rdropWhileChars jsWhitespace l2 := by
  subst hl1
  unfold trimChars
  rw [List.cons_append, List.dropWhile_cons,
    if_neg (by rw [hc]; exact fun hx => Bool.noConfusion hx)]
  rw [← List.cons_append]
  exact rdropWhile_append_of_exists h

theorem relaxed_accepts_scheme_strings (rest : String)
    (hnws : ∃ c ∈ rest.data, jsWhitespace c = false)
    (hdot : ∀ c ∈ rest.data, dotChar c = true) :
    isValidGitHubUrlRelaxed ("https://" ++ rest) = true ∧
    isValidGitHubUrlRelaxed ("http://" ++ rest) = true := by
  have hXne : rdropWhileChars jsWhitespace rest.data ≠ [] := rdropWhile_ne_nil hnws
  have hXdot : ∀ c ∈ rdropWhileChars jsWhitespace rest.data, dotChar c = true :=
    fun c hc => hdot c (rdropWhile_subset c hc)
  have hXok : (!(rdropWhileChars jsWhitespace rest.data).isEmpty
      && (rdropWhileChars jsWhitespace rest.data).all dotChar) = true := by
    rw [Bool.and_eq_true]
    constructor
    · simp only [Bool.not_eq_true', List.isEmpty_eq_false]
      exact hXne
    · exact List.all_eq_true.mpr fun x hx => hXdot x hx
  constructor
  · unfold isValidGitHubUrlRelaxed
    rw [if_neg (string_ne_empty_of_data_cons ("https://" ++ rest) 'h'
      ("ttps://".data ++ rest.data) rfl)]
    rw [show ("https://" ++ rest).data = "https://".data ++ rest.data from rfl]
    rw [trimChars_append_of_head_not_ws "https://".data rest.data 'h' "ttps://".data
      rfl rfl hnws]
    unfold relaxedPatternTest
    rw [stripPrefixChars_append]
    exact hXok
  · unfold isValidGitHubUrlRelaxed
    rw [if_neg (string_ne_empty_of_data_cons ("http://" ++ rest) 'h'
      ("ttp://".data ++ rest.data) rfl)]
    rw [show ("http://" ++ rest).data = "http://".data ++ rest.data from rfl]
    rw [trimChars_append_of_head_not_ws "http://".data rest.data 'h' "ttp://".data
      rfl rfl hnws]
    unfold relaxedPatternTest
    rw [show stripPrefixChars "https://".data
        ("http://".data ++ rdropWhileChars jsWhitespace rest.data) = none from rfl]
    rw [stripPrefixChars_append]
    exact hXok

/-- Claim C8 is false as stated: `"https://a\nb"` starts with `https://`
and has further characters, yet the relaxed revision rejects it, because
the `.` of `^https?:\/\/.+$` never matches a line terminator. -/
theorem c8_counterexample :
    jsStartsWith "https://a\nb" "https://" = true ∧
    ("https://a\nb" : String).length > ("https://" : String).length ∧
    isValidGitHubUrlRelaxed "https://a\nb" = false := by decide

/-- Claim C8 as amended: `"not a url"` is rejected and
`"https://github.com/a/b"` accepted by both revisions; the strict revision
rejects `"https://gitlab.com/a/b"`; and the relaxed revision accepts every
`http(s)://` string whose remaining characters contain no line terminator
and at least one non-whitespace character (rather than every string with
at least one further character). -/
theorem c8_validation_boundary :
    isValidGitHubUrlStrict "not a url" = false ∧
    isValidGitHubUrlRelaxed "not a url" = false ∧
    isValidGitHubUrlStrict "https://github.com/a/b" = true ∧
    isValidGitHubUrlRelaxed "https://github.com/a/b" = true ∧
    isValidGitHubUrlStrict "https://gitlab.com/a/b" = false ∧
    ∀ rest : String,
      (∃ c ∈ rest.data, jsWhitespace c = false) →
      (∀ c ∈ rest.data, dotChar c = true) →
      isValidGitHubUrlRelaxed ("https://" ++ rest) = true ∧
      isValidGitHubUrlRelaxed ("http://" ++ rest) = true := by
  refine ⟨by decide, by decide, by decide, by decide, by decide, ?_⟩
  intro rest hnws hdot
  exact relaxed_accepts_scheme_strings rest hnws hdot

/-- Witness for the amended C8 at a concrete non-GitHub URL. -/
theorem c8_validation_boundary_witness :
    isValidGitHubUrlRelaxed ("https://" ++ "gitlab.com/a/b") = true ∧
    isValidGitHubUrlRelaxed ("http://" ++ "gitlab.com/a/b") = true :=
  c8_validation_boundary.2.2.2.2.2 "gitlab.com/a/b" (by decide) (by decide)
